import Mathlib

/-!
Verification of the software-release registry.

The ledger side embeds `SoftwareReleaseContract.java` (chaincode): the
Fabric world state is a key/value store from string keys to serialized
`SoftwareRelease` records; we model it as an association list with
first-match lookup and overwrite-in-place insertion, which coincides with
a map on every state reachable from the empty state.

The gateway side embeds the Express route handlers (`POST /packages/upload`,
`GET .../download-file`, `POST .../validate-file`, `DELETE /packages/:packageId`)
together with `FileStorageService.ts` and `PackageModel.ts`.  SHA-256 is kept
abstract as a function parameter `hash : Bytes → String`, matching the
deterministic-digest contract of `crypto.createHash("sha256")`.
-/

/-- Ledger record, from `SoftwareRelease.java`: packageId, version, fileHash,
status ("ACTIVE" or "DISCONTINUED"), publisher. -/
structure SoftwareRelease where
  packageId : String
  version : String
  fileHash : String
  status : String
  publisher : String
deriving Repr, DecidableEq

/-- The Fabric world state for the release contract, keyed by
`packageId + ":" + version`. -/
abbrev Ledger := List (String × SoftwareRelease)

/-- `createKey` from `SoftwareReleaseContract.java`: `packageId + ":" + version`. -/
def createKey (packageId version : String) : String :=
  packageId ++ ":" ++ version

/-- `ctx.getStub().getStringState(key)`: first record stored at `key`,
`none` when the key is absent (empty string in the Java stub). -/
def getStringState (l : Ledger) (key : String) : Option SoftwareRelease :=
  match l with
  | [] => none
  | (k, v) :: rest => if k == key then some v else getStringState rest key

/-- `ctx.getStub().putStringState(key, json)`: overwrite the value at `key`,
appending a fresh entry when the key is absent. -/
def putStringState (l : Ledger) (key : String) (r : SoftwareRelease) : Ledger :=
  match l with
  | [] => [(key, r)]
  | (k, v) :: rest =>
      if k == key then (key, r) :: rest else (k, v) :: putStringState rest key r

/-- Error codes of the `ReleaseErrors` enum in `SoftwareReleaseContract.java`. -/
inductive ReleaseErrors where
  | RELEASE_NOT_FOUND
  | RELEASE_ALREADY_EXISTS
  | INVALID_HASH
  | RELEASE_DISCONTINUED
deriving Repr, DecidableEq

/-- `ReleaseExists(ctx, key)`: the stored JSON at `key` is non-null and
non-empty. -/
def ReleaseExists (l : Ledger) (key : String) : Bool :=
  (getStringState l key).isSome

/-- Private helper `getRelease(ctx, key)`: throws `RELEASE_NOT_FOUND` when the
key is absent, otherwise deserializes the stored record. -/
def getRelease (l : Ledger) (key : String) : Except ReleaseErrors SoftwareRelease :=
  match getStringState l key with
  | none => .error .RELEASE_NOT_FOUND
  | some r => .ok r

/-- `PublishRelease(ctx, packageId, version, fileHash)`: fails with
`RELEASE_ALREADY_EXISTS` when a record is already stored at the key,
otherwise writes a fresh record with status `"ACTIVE"` and the caller's MSP
identity as publisher, returning the record and the updated world state. -/
def PublishRelease (l : Ledger) (packageId version fileHash publisher : String) :
    Except ReleaseErrors (SoftwareRelease × Ledger) :=
  let key := createKey packageId version
  if ReleaseExists l key then
    .error .RELEASE_ALREADY_EXISTS
  else
    let release : SoftwareRelease :=
      ⟨packageId, version, fileHash, "ACTIVE", publisher⟩
    .ok (release, putStringState l key release)

/-- `DiscontinueRelease(ctx, packageId, version)`: reads the record at the key
(throwing `RELEASE_NOT_FOUND` if absent), sets its status to
`"DISCONTINUED"`, writes it back and returns it. -/
def DiscontinueRelease (l : Ledger) (packageId version : String) :
    Except ReleaseErrors (SoftwareRelease × Ledger) :=
  let key := createKey packageId version
  match getRelease l key with
  | .error e => .error e
  | .ok release =>
      let updated := { release with status := "DISCONTINUED" }
      .ok (updated, putStringState l key updated)

/-- `ValidateRelease(ctx, packageId, version, fileHash)`: false when absent,
false on hash mismatch, false when discontinued, true otherwise; the only
possible error is the (unreachable) `RELEASE_NOT_FOUND` of the inner read. -/
def ValidateRelease (l : Ledger) (packageId version fileHash : String) :
    Except ReleaseErrors Bool :=
  let key := createKey packageId version
  if !ReleaseExists l key then
    .ok false
  else
    match getRelease l key with
    | .error e => .error e
    | .ok release =>
        if release.fileHash != fileHash then .ok false
        else if release.status == "DISCONTINUED" then .ok false
        else .ok true

/-- `GetRelease(ctx, packageId, version)`: public read of the record. -/
def GetRelease (l : Ledger) (packageId version : String) :
    Except ReleaseErrors SoftwareRelease :=
  getRelease l (createKey packageId version)

-- Gateway-side model

/-- An artifact buffer: the byte contents of an uploaded file
(`req.file.buffer`). -/
abbrev Bytes := List Nat

/-- A row of the `packages` table, from `PackageModel` (`Package` interface);
the timestamp columns, being database defaults irrelevant to the claims, are
omitted. -/
structure Package where
  package_id : String
  owner_id : String
  name : String
  description : Option String
deriving Repr, DecidableEq

/-- `PackageModel.findById`: first row whose `package_id` matches, `null`
when none does. -/
def PackageModel.findById (rows : List Package) (packageId : String) :
    Option Package :=
  match rows with
  | [] => none
  | p :: rest =>
      if p.package_id == packageId then some p
      else PackageModel.findById rest packageId

/-- `PackageModel.create`: INSERT of a new row (the handler only calls it
when `findById` returned `null`). -/
def PackageModel.create (rows : List Package) (p : Package) : List Package :=
  rows ++ [p]

/-- `PackageModel.delete`: DELETE of every row at the given `package_id`. -/
def PackageModel.delete (rows : List Package) (packageId : String) :
    List Package :=
  rows.filter (fun p => p.package_id != packageId)

/-- The artifact store: one blob per `(packageId, version)` key under the
storage root (`FileStorageService`). -/
abbrev FileStore := List ((String × String) × Bytes)

/-- File lookup at a `(packageId, version)` key (path
`storageDir/packageId/version/package.tar.gz`). -/
def filesGet (fs : FileStore) (packageId version : String) : Option Bytes :=
  match fs with
  | [] => none
  | (k, b) :: rest =>
      if k == (packageId, version) then some b else filesGet rest packageId version

/-- `fs.writeFile`: overwrite the blob at the key, creating it when absent. -/
def filesPut (fs : FileStore) (packageId version : String) (b : Bytes) :
    FileStore :=
  match fs with
  | [] => [((packageId, version), b)]
  | (k, b') :: rest =>
      if k == (packageId, version) then ((packageId, version), b) :: rest
      else (k, b') :: filesPut rest packageId version b

/-- `FileStorageService.fileExists`. -/
def FileStorageService.fileExists (fs : FileStore) (packageId version : String) :
    Bool :=
  (filesGet fs packageId version).isSome

/-- `FileStorageService.saveFile`: writes the buffer under the key and returns
its digest and size; `hash` stands for `calculateFileHash` (SHA-256 hex). -/
def FileStorageService.saveFile (hash : Bytes → String) (fs : FileStore)
    (packageId version : String) (fileBuffer : Bytes) :
    (String × Nat) × FileStore :=
  ((hash fileBuffer, fileBuffer.length), filesPut fs packageId version fileBuffer)

/-- `FileStorageService.getFile`: the stored blob, or a not-found error. -/
def FileStorageService.getFile (fs : FileStore) (packageId version : String) :
    Option Bytes :=
  filesGet fs packageId version

/-- `FileStorageService.deleteFile`: `rm -rf` of the version directory
(absence is not an error). -/
def FileStorageService.deleteFile (fs : FileStore) (packageId version : String) :
    FileStore :=
  fs.filter (fun e => e.1 != (packageId, version))

/-- `FileStorageService.deletePackage`: `rm -rf` of the whole package
directory, removing every version's blob. -/
def FileStorageService.deletePackage (fs : FileStore) (packageId : String) :
    FileStore :=
  fs.filter (fun e => e.1.1 != packageId)

/-- A notification event appended by `NotificationService`
(`versionUpdate` from `notifyVersionUpdate`, `packageDiscontinued` from
`notifyPackageDiscontinued`); the per-subscriber email fan-out is abstracted
into the event itself. -/
inductive NotificationEvent where
  | versionUpdate (packageId version : String)
  | packageDiscontinued (packageId : String)
deriving Repr, DecidableEq

/-- A `download_logs` row as written by the download handler. -/
structure DownloadLog where
  packageId : String
  version : String
  userId : Option String
deriving Repr, DecidableEq

/-- The combined observable state the route handlers act on: Fabric world
state, artifact store, `packages` table, download log and dispatched
notifications. -/
structure ServerState where
  ledger : Ledger
  files : FileStore
  packages : List Package
  downloads : List DownloadLog
  notifications : List NotificationEvent
deriving Repr, DecidableEq

/-- HTTP outcome of `POST /packages/upload`. -/
inductive UploadOutcome where
  /-- 201: publish succeeded; body carries `fileHash` and `size`. -/
  | created (fileHash : String) (size : Nat)
  /-- 403: `Only package owner can publish new versions`. -/
  | forbidden
  /-- 500: an error thrown inside the `try` block (here only the ledger
  publish can throw). -/
  | serverError (e : ReleaseErrors)
deriving Repr, DecidableEq

/-- The `POST /packages/upload` handler: resolve or lazily create the
`packages` row (checking ownership when it exists), save the file (computing
its hash), publish to the ledger, notify subscribers.  A thrown ledger error
is caught and reported as 500 — with no compensating deletion of the
just-written file nor of a just-created `packages` row. -/
def uploadHandler (hash : Bytes → String) (s : ServerState)
    (packageId version name : String) (description : Option String)
    (userId role publisher : String) (fileBuffer : Bytes) :
    UploadOutcome × ServerState :=
  let checkedState :=
    match PackageModel.findById s.packages packageId with
    | none =>
        let newPkg : Package := ⟨packageId, userId, name, description⟩
        some { s with packages := PackageModel.create s.packages newPkg }
    | some pkg =>
        if pkg.owner_id != userId && role != "ADMIN" then none else some s
  match checkedState with
  | none => (.forbidden, s)
  | some s1 =>
      let ((fileHash, size), files') :=
        FileStorageService.saveFile hash s1.files packageId version fileBuffer
      let s2 := { s1 with files := files' }
      match PublishRelease s2.ledger packageId version fileHash publisher with
      | .error e => (.serverError e, s2)
      | .ok (_, ledger') =>
          let s3 := { s2 with ledger := ledger' }
          let s4 := { s3 with notifications :=
            s3.notifications ++ [.versionUpdate packageId version] }
          (.created fileHash size, s4)

/-- HTTP outcome of `GET /packages/:packageId/:version/download-file`. -/
inductive DownloadOutcome where
  /-- 200: the file is sent. -/
  | ok (fileBuffer : Bytes)
  /-- 403: `Version <version> is <status>` — the status gate. -/
  | unavailable (status : String)
  /-- 404: release or file not found. -/
  | notFound
deriving Repr, DecidableEq

/-- The download handler: reads the release from the ledger (404 when
absent), refuses with 403 when its status is not `"ACTIVE"`, then reads the
file (404 when absent), logs the download and sends the buffer. -/
def downloadHandler (s : ServerState) (packageId version : String)
    (userId : Option String) : DownloadOutcome × ServerState :=
  match GetRelease s.ledger packageId version with
  | .error _ => (.notFound, s)
  | .ok release =>
      if release.status != "ACTIVE" then
        (.unavailable release.status, s)
      else
        match FileStorageService.getFile s.files packageId version with
        | none => (.notFound, s)
        | some fileBuffer =>
            (.ok fileBuffer,
             { s with downloads :=
                 s.downloads ++ [⟨packageId, version, userId⟩] })

/-- HTTP outcome of `POST /packages/:packageId/:version/validate-file`. -/
inductive ValidateFileOutcome where
  /-- 200: the structured result `{valid, expectedHash, actualHash}`. -/
  | ok (valid : Bool) (expectedHash actualHash : String)
  /-- 500: an error thrown inside the `try` block (the ledger read on an
  absent key). -/
  | serverError (e : ReleaseErrors)
deriving Repr, DecidableEq

/-- The validate-file handler: hashes the uploaded buffer, reads the recorded
release (500 when absent), asks the ledger to validate, and always answers
with the structured `{valid, expectedHash, actualHash}` object — a mismatch
is a normal 200 response, never a thrown error. -/
def validateFileHandler (hash : Bytes → String) (s : ServerState)
    (packageId version : String) (fileBuffer : Bytes) : ValidateFileOutcome :=
  let uploadedHash := hash fileBuffer
  match GetRelease s.ledger packageId version with
  | .error e => .serverError e
  | .ok release =>
      match ValidateRelease s.ledger packageId version uploadedHash with
      | .error e => .serverError e
      | .ok valid => .ok valid release.fileHash uploadedHash

/-- The `DELETE /packages/:packageId` handler: deletes the `packages` row,
removes every stored blob of the package, and notifies subscribers.  It
issues no ledger transaction. -/
def deletePackageHandler (s : ServerState) (packageId : String) : ServerState :=
  let s1 := { s with packages := PackageModel.delete s.packages packageId }
  let s2 := { s1 with files := FileStorageService.deletePackage s1.files packageId }
  { s2 with notifications :=
      s2.notifications ++ [.packageDiscontinued packageId] }

-- Ledger operation sequences

/-- A ledger transaction: the two submitting transaction types of
`SoftwareReleaseContract`. -/
inductive LedgerOp where
  | publish (packageId version fileHash publisher : String)
  | discontinue (packageId version : String)
deriving Repr, DecidableEq

/-- Effect of one submitted transaction on the world state; a transaction
that throws a `ChaincodeException` is not committed, so the state is
unchanged. -/
def applyOp (l : Ledger) : LedgerOp → Ledger
  | .publish p v h pub =>
      match PublishRelease l p v h pub with
      | .ok (_, l') => l'
      | .error _ => l
  | .discontinue p v =>
      match DiscontinueRelease l p v with
      | .ok (_, l') => l'
      | .error _ => l

/-- World state after a sequence of submitted transactions. -/
def runOps (l : Ledger) (ops : List LedgerOp) : Ledger :=
  ops.foldl applyOp l

/-- The externally observed status at a key: `none` for absent, otherwise the
record's `status` string. -/
def statusAt (l : Ledger) (k : String) : Option String :=
  (getStringState l k).map SoftwareRelease.status

/-- The world state holds at most one record per key. -/
def KeysNodup (l : Ledger) : Prop :=
  (l.map Prod.fst).Nodup

/-- Every stored record carries one of the two legal status strings; this
holds on every state reachable from the empty world state. -/
def StatusWF (l : Ledger) : Prop :=
  ∀ k r, getStringState l k = some r →
    r.status = "ACTIVE" ∨ r.status = "DISCONTINUED"

/-- The key a ledger transaction targets. -/
def opKey : LedgerOp → String
  | .publish p v _ _ => createKey p v
  | .discontinue p v => createKey p v

-- Concrete sample data used to instantiate the theorems

/-- A concrete stand-in digest for witnesses: deterministic and injective on
the byte lists used below. -/
def sampleHash (b : Bytes) : String :=
  Nat.repr (b.foldl (fun a n => a * 256 + n) 1)

/-- The scenario release of spec §8: `("com.acme.lib", "1.0.0")`. -/
def sampleRelease : SoftwareRelease :=
  ⟨"com.acme.lib", "1.0.0", "h1", "ACTIVE", "Org1MSP"⟩

/-- A world state holding just the sample release. -/
def sampleLedger : Ledger :=
  [("com.acme.lib:1.0.0", sampleRelease)]

/-- The same world state after the sample release was discontinued. -/
def sampleDiscLedger : Ledger :=
  [("com.acme.lib:1.0.0", { sampleRelease with status := "DISCONTINUED" })]

/-- A `packages` row for the sample package. -/
def samplePackage : Package :=
  ⟨"com.acme.lib", "user-1", "Acme Lib", none⟩

/-- A server state with the sample release published, its artifact stored,
and its metadata row present. -/
def sampleState : ServerState :=
  { ledger := sampleLedger,
    files := [(("com.acme.lib", "1.0.0"), [0, 1, 2])],
    packages := [samplePackage],
    downloads := [],
    notifications := [] }

/-- The sample server state after the release was discontinued on the ledger,
its artifact still physically present in the store. -/
def sampleDiscState : ServerState :=
  { sampleState with ledger := sampleDiscLedger }

/-- The server state before anything was published. -/
def emptyState : ServerState :=
  { ledger := [], files := [], packages := [], downloads := [],
    notifications := [] }

/-- State after the first sample upload (`b1 = [0]`). -/
def cexState1 : ServerState :=
  (uploadHandler sampleHash emptyState "com.acme.lib" "1.0.0" "Acme Lib" none
    "user-1" "OWNER" "Org1MSP" [0]).2

/-- Result of the duplicate second upload (`b2 = [1]`) at the same key. -/
def cexRun2 : UploadOutcome × ServerState :=
  uploadHandler sampleHash cexState1 "com.acme.lib" "1.0.0" "Acme Lib" none
    "user-1" "OWNER" "Org1MSP" [1]

-- Basic world-state lemmas

theorem getStringState_putStringState_self (l : Ledger) (k : String)
    (r : SoftwareRelease) :
    getStringState (putStringState l k r) k = some r := by
  induction l with
  | nil => simp [putStringState, getStringState]
  | cons hd tl ih =>
      obtain ⟨k', v⟩ := hd
      by_cases h : k' = k
      · subst h
        simp [putStringState, getStringState]
      · simp only [putStringState, getStringState, beq_iff_eq, if_neg h]
        exact ih

theorem getStringState_putStringState_ne (l : Ledger) (k k' : String)
    (r : SoftwareRelease) (h : k' ≠ k) :
    getStringState (putStringState l k r) k' = getStringState l k' := by
  induction l with
  | nil => simp [putStringState, getStringState, Ne.symm h]
  | cons hd tl ih =>
      obtain ⟨k₀, v⟩ := hd
      by_cases h0 : k₀ = k
      · subst h0
        simp [putStringState, getStringState, Ne.symm h]
      · simp only [putStringState, getStringState, beq_iff_eq, if_neg h0]
        by_cases h1 : k₀ = k'
        · simp [h1]
        · simp only [if_neg h1]
          exact ih

theorem putStringState_putStringState_same (l : Ledger) (k : String)
    (r r' : SoftwareRelease) :
    putStringState (putStringState l k r) k r' = putStringState l k r' := by
  induction l with
  | nil => simp [putStringState]
  | cons hd tl ih =>
      obtain ⟨k₀, v⟩ := hd
      by_cases h0 : k₀ = k
      · subst h0
        simp [putStringState]
      · simp only [putStringState, beq_iff_eq, if_neg h0]
        rw [ih]

theorem mem_keys_putStringState (l : Ledger) (k : String) (r : SoftwareRelease)
    (x : String) :
    x ∈ (putStringState l k r).map Prod.fst → x ∈ l.map Prod.fst ∨ x = k := by
  induction l with
  | nil =>
      intro hx
      simp [putStringState] at hx
      exact Or.inr hx
  | cons hd tl ih =>
      obtain ⟨k₀, v⟩ := hd
      intro hx
      by_cases h0 : k₀ = k
      · have hx' : x = k ∨ x ∈ tl.map Prod.fst := by
          simpa [putStringState, h0] using hx
        rcases hx' with hx' | hx'
        · exact Or.inr hx'
        · exact Or.inl (by simp [hx'])
      · simp only [putStringState, beq_iff_eq, if_neg h0, List.map_cons,
          List.mem_cons] at hx ⊢
        rcases hx with hx | hx
        · exact Or.inl (Or.inl hx)
        · rcases ih hx with h | h
          · exact Or.inl (Or.inr h)
          · exact Or.inr h

theorem KeysNodup_putStringState (l : Ledger) (k : String) (r : SoftwareRelease)
    (h : KeysNodup l) : KeysNodup (putStringState l k r) := by
  induction l with
  | nil => simp [KeysNodup, putStringState]
  | cons hd tl ih =>
      obtain ⟨k₀, v⟩ := hd
      simp only [KeysNodup, List.map_cons, List.nodup_cons] at h
      by_cases h0 : k₀ = k
      · subst h0
        simpa [KeysNodup, putStringState] using h
      · have htl := ih h.2
        simp only [KeysNodup, putStringState, beq_iff_eq, if_neg h0,
          List.map_cons, List.nodup_cons]
        refine ⟨?_, htl⟩
        intro hmem
        rcases mem_keys_putStringState tl k r k₀ hmem with hm | hm
        · exact h.1 hm
        · exact h0 hm

theorem applyOp_preserves_record (l : Ledger) (op : LedgerOp) (k : String)
    (r : SoftwareRelease) (hex : getStringState l k = some r) :
    getStringState (applyOp l op) k = some r ∨
    getStringState (applyOp l op) k = some { r with status := "DISCONTINUED" } := by
  cases op with
  | publish p v h pub =>
      by_cases hk : createKey p v = k
      · subst hk
        left
        simp [applyOp, PublishRelease, ReleaseExists, hex]
      · cases hpub : PublishRelease l p v h pub with
        | error e => left; simp [applyOp, hpub, hex]
        | ok res =>
            obtain ⟨r', l'⟩ := res
            left
            simp only [applyOp, hpub]
            simp only [PublishRelease] at hpub
            split at hpub
            · exact absurd hpub (by simp)
            · simp only [Except.ok.injEq, Prod.mk.injEq] at hpub
              rw [← hpub.2]
              rw [getStringState_putStringState_ne _ _ _ _ (fun hh => hk hh.symm)]
              exact hex
  | discontinue p v =>
      by_cases hk : createKey p v = k
      · subst hk
        right
        simp [applyOp, DiscontinueRelease, getRelease, hex,
          getStringState_putStringState_self]
      · cases hdis : DiscontinueRelease l p v with
        | error e => left; simp [applyOp, hdis, hex]
        | ok res =>
            obtain ⟨r', l'⟩ := res
            left
            simp only [applyOp, hdis]
            simp only [DiscontinueRelease] at hdis
            split at hdis
            · exact absurd hdis (by simp)
            · simp only [Except.ok.injEq, Prod.mk.injEq] at hdis
              rw [← hdis.2]
              rw [getStringState_putStringState_ne _ _ _ _ (fun hh => hk hh.symm)]
              exact hex

theorem runOps_preserves_record (ops : List LedgerOp) (l : Ledger) (k : String)
    (r : SoftwareRelease) :
    getStringState l k = some r →
    getStringState (runOps l ops) k = some r ∨
    getStringState (runOps l ops) k = some { r with status := "DISCONTINUED" } := by
  induction ops generalizing l r with
  | nil =>
      intro hex
      left
      simpa [runOps] using hex
  | cons op rest ih =>
      intro hex
      rcases applyOp_preserves_record l op k r hex with h | h
      · rcases ih (applyOp l op) r h with h' | h'
        · left; simpa [runOps] using h'
        · right; simpa [runOps] using h'
      · rcases ih (applyOp l op) { r with status := "DISCONTINUED" } h with h' | h'
        · right; simpa [runOps] using h'
        · right
          have heq : ({ { r with status := "DISCONTINUED" } with
              status := "DISCONTINUED" } : SoftwareRelease) =
              { r with status := "DISCONTINUED" } := rfl
          rw [heq] at h'
          simpa [runOps] using h'

theorem active_ne_disc : ("ACTIVE" : String) ≠ "DISCONTINUED" := by decide

theorem disc_ne_active : ("DISCONTINUED" : String) ≠ "ACTIVE" := by decide

theorem filesGet_filesPut_self (fs : FileStore) (p v : String) (b : Bytes) :
    filesGet (filesPut fs p v b) p v = some b := by
  induction fs with
  | nil => simp [filesPut, filesGet]
  | cons hd tl ih =>
      obtain ⟨k, b₀⟩ := hd
      by_cases h0 : k = (p, v)
      · simp [filesPut, filesGet, h0]
      · simp only [filesPut, beq_iff_eq, if_neg h0, filesGet]
        exact ih

theorem filesGet_deletePackage (fs : FileStore) (p v : String) :
    filesGet (FileStorageService.deletePackage fs p) p v = none := by
  induction fs with
  | nil => simp [FileStorageService.deletePackage, filesGet]
  | cons hd tl ih =>
      obtain ⟨⟨p₀, v₀⟩, b⟩ := hd
      by_cases h0 : p₀ = p
      · simpa [FileStorageService.deletePackage, List.filter_cons, h0] using ih
      · simp only [FileStorageService.deletePackage, List.filter_cons] at ih ⊢
        have hcond : ((p₀ : String) != p) = true := by
          simp only [bne_iff_ne, ne_eq]
          exact h0
        have hkey : ((p₀, v₀) : String × String) ≠ (p, v) := by
          simp [Prod.ext_iff, h0]
        simp only [hcond, if_true, filesGet, beq_iff_eq, if_neg hkey]
        exact ih

theorem findById_create_self (rows : List Package) (pkg : Package)
    (h : PackageModel.findById rows pkg.package_id = none) :
    PackageModel.findById (PackageModel.create rows pkg) pkg.package_id =
      some pkg := by
  induction rows with
  | nil => simp [PackageModel.create, PackageModel.findById]
  | cons q rest ih =>
      simp only [PackageModel.findById, beq_iff_eq] at h
      by_cases h0 : q.package_id = pkg.package_id
      · rw [if_pos h0] at h
        cases h
      · rw [if_neg h0] at h
        simp only [PackageModel.create, List.cons_append] at ih ⊢
        simp only [PackageModel.findById, beq_iff_eq, if_neg h0]
        exact ih h

theorem getStringState_applyOp_other (l : Ledger) (op : LedgerOp) (k : String)
    (hk : opKey op ≠ k) :
    getStringState (applyOp l op) k = getStringState l k := by
  cases op with
  | publish p v h pub =>
      have hk' : k ≠ createKey p v := fun hh => hk (by simp [opKey, hh])
      cases hpub : PublishRelease l p v h pub with
      | error e => simp [applyOp, hpub]
      | ok res =>
          obtain ⟨r', l'⟩ := res
          simp only [applyOp, hpub]
          simp only [PublishRelease] at hpub
          split at hpub
          · exact absurd hpub (by simp)
          · simp only [Except.ok.injEq, Prod.mk.injEq] at hpub
            rw [← hpub.2]
            exact getStringState_putStringState_ne _ _ _ _ hk'
  | discontinue p v =>
      have hk' : k ≠ createKey p v := fun hh => hk (by simp [opKey, hh])
      cases hdis : DiscontinueRelease l p v with
      | error e => simp [applyOp, hdis]
      | ok res =>
          obtain ⟨r', l'⟩ := res
          simp only [applyOp, hdis]
          simp only [DiscontinueRelease] at hdis
          split at hdis
          · exact absurd hdis (by simp)
          · simp only [Except.ok.injEq, Prod.mk.injEq] at hdis
            rw [← hdis.2]
            exact getStringState_putStringState_ne _ _ _ _ hk'

theorem uploadHandler_fresh (hash : Bytes → String) (s : ServerState)
    (p v name : String) (d : Option String) (userId role pub : String)
    (b : Bytes)
    (hnopkg : PackageModel.findById s.packages p = none)
    (habsent : getStringState s.ledger (createKey p v) = none) :
    uploadHandler hash s p v name d userId role pub b =
      (.created (hash b) b.length,
       { ledger := putStringState s.ledger (createKey p v)
           ⟨p, v, hash b, "ACTIVE", pub⟩,
         files := filesPut s.files p v b,
         packages := PackageModel.create s.packages ⟨p, userId, name, d⟩,
         downloads := s.downloads,
         notifications := s.notifications ++ [.versionUpdate p v] }) := by
  simp [uploadHandler, hnopkg, FileStorageService.saveFile, PublishRelease,
    ReleaseExists, habsent]

theorem uploadHandler_owned_dup (hash : Bytes → String) (s : ServerState)
    (p v name : String) (d : Option String) (userId role pub : String)
    (b : Bytes) (pkg : Package) (r : SoftwareRelease)
    (hpkg : PackageModel.findById s.packages p = some pkg)
    (howner : pkg.owner_id = userId)
    (hrec : getStringState s.ledger (createKey p v) = some r) :
    uploadHandler hash s p v name d userId role pub b =
      (.serverError .RELEASE_ALREADY_EXISTS,
       { s with files := filesPut s.files p v b }) := by
  simp [uploadHandler, hpkg, howner, FileStorageService.saveFile,
    PublishRelease, ReleaseExists, hrec]

theorem uploadHandler_fresh_dup (hash : Bytes → String) (s : ServerState)
    (p v name : String) (d : Option String) (userId role pub : String)
    (b : Bytes) (r : SoftwareRelease)
    (hnopkg : PackageModel.findById s.packages p = none)
    (hrec : getStringState s.ledger (createKey p v) = some r) :
    uploadHandler hash s p v name d userId role pub b =
      (.serverError .RELEASE_ALREADY_EXISTS,
       { s with packages := PackageModel.create s.packages ⟨p, userId, name, d⟩,
                files := filesPut s.files p v b }) := by
  simp [uploadHandler, hnopkg, FileStorageService.saveFile,
    PublishRelease, ReleaseExists, hrec]

-- Claim theorems

/-- C2: at a key where a Release record already exists — whatever its status —
`PublishRelease` throws `RELEASE_ALREADY_EXISTS` (the uncommitted transaction
leaves the stored record unchanged, as `applyOp` shows), and a successful
publish preserves the at-most-one-record-per-key invariant, so an existing
record is never overwritten by publish. -/
theorem publish_at_existing_key_fails (l : Ledger) (p v h pub : String)
    (r : SoftwareRelease)
    (hex : getStringState l (createKey p v) = some r) :
    PublishRelease l p v h pub = .error .RELEASE_ALREADY_EXISTS ∧
    applyOp l (.publish p v h pub) = l ∧
    ∀ (l₀ : Ledger) (p' v' h' pub' : String) (r' : SoftwareRelease) (l' : Ledger),
      KeysNodup l₀ → PublishRelease l₀ p' v' h' pub' = .ok (r', l') →
      KeysNodup l' := by
  have h1 : PublishRelease l p v h pub = .error .RELEASE_ALREADY_EXISTS := by
    simp [PublishRelease, ReleaseExists, hex]
  refine ⟨h1, ?_, ?_⟩
  · simp [applyOp, h1]
  · intro l₀ p' v' h' pub' r' l' hn hok
    simp only [PublishRelease] at hok
    split at hok
    · exact absurd hok (by simp)
    · simp only [Except.ok.injEq, Prod.mk.injEq] at hok
      rw [← hok.2]
      exact KeysNodup_putStringState _ _ _ hn

/-- C2 witness: re-publishing the already-published sample key fails. -/
theorem publish_at_existing_key_fails_witness :
    PublishRelease sampleLedger "com.acme.lib" "1.0.0" "h2" "Org1MSP" =
      .error .RELEASE_ALREADY_EXISTS :=
  (publish_at_existing_key_fails sampleLedger "com.acme.lib" "1.0.0" "h2"
    "Org1MSP" sampleRelease (by decide)).1

/-- C4: `ValidateRelease` never throws: it answers `.ok` with a boolean that
is true exactly when a record exists at the key, its status is ACTIVE and the
candidate hash equals the recorded `fileHash`; absence, DISCONTINUED status
or a hash mismatch each yield `.ok false`, not an error (every reachable
state carrying only the two legal status strings). -/
theorem validate_true_iff_active_and_match (l : Ledger) (p v h : String)
    (hwf : StatusWF l) :
    ∃ b, ValidateRelease l p v h = .ok b ∧
      (b = true ↔ ∃ r, getStringState l (createKey p v) = some r ∧
        r.status = "ACTIVE" ∧ r.fileHash = h) := by
  cases hg : getStringState l (createKey p v) with
  | none =>
      refine ⟨false, ?_, ?_⟩
      · simp [ValidateRelease, ReleaseExists, hg]
      · simp [hg]
  | some r =>
      by_cases hh : r.fileHash = h
      · rcases hwf _ _ hg with hs | hs
        · refine ⟨true, ?_, iff_of_true rfl ⟨r, rfl, hs, hh⟩⟩
          simp [ValidateRelease, ReleaseExists, getRelease, hg, hh, hs,
            active_ne_disc]
        · refine ⟨false, ?_, iff_of_false (by simp) ?_⟩
          · simp [ValidateRelease, ReleaseExists, getRelease, hg, hh, hs]
          · rintro ⟨r', hr', hs', hh'⟩
            cases hr'
            exact disc_ne_active (hs ▸ hs')
      · refine ⟨false, ?_, iff_of_false (by simp) ?_⟩
        · simp [ValidateRelease, ReleaseExists, getRelease, hg, hh]
        · rintro ⟨r', hr', hs', hh'⟩
          cases hr'
          exact hh hh'

/-- C4 witness: validating the recorded hash of the ACTIVE sample release
answers `.ok true`. -/
theorem validate_true_iff_active_and_match_witness :
    ValidateRelease sampleLedger "com.acme.lib" "1.0.0" "h1" = .ok true := by
  obtain ⟨b, hb, hiff⟩ :=
    validate_true_iff_active_and_match sampleLedger "com.acme.lib" "1.0.0" "h1"
      (by
        intro k r hkr
        simp only [sampleLedger, getStringState] at hkr
        split at hkr
        · cases hkr
          exact Or.inl rfl
        · cases hkr)
  have hb1 : b = true := hiff.mpr ⟨sampleRelease, by decide, rfl, rfl⟩
  rw [hb1] at hb
  exact hb

/-- C5: per key, the only transitions a publish or discontinue transaction
can cause are absent → ACTIVE (publish) and ACTIVE → DISCONTINUED
(discontinue): an absent key stays absent or becomes ACTIVE — never
DISCONTINUED directly — an ACTIVE record stays ACTIVE or becomes
DISCONTINUED, and a DISCONTINUED record stays DISCONTINUED under every
further operation sequence. -/
theorem status_transition_system (l : Ledger) (op : LedgerOp) (k : String) :
    (statusAt l k = none →
      statusAt (applyOp l op) k = none ∨
      statusAt (applyOp l op) k = some "ACTIVE") ∧
    (statusAt l k = some "ACTIVE" →
      statusAt (applyOp l op) k = some "ACTIVE" ∨
      statusAt (applyOp l op) k = some "DISCONTINUED") ∧
    (statusAt l k = some "DISCONTINUED" →
      ∀ ops : List LedgerOp,
        statusAt (runOps l ops) k = some "DISCONTINUED") := by
  refine ⟨?_, ?_, ?_⟩
  · intro hnone
    have hg : getStringState l k = none := by
      cases hgg : getStringState l k with
      | none => rfl
      | some r => simp [statusAt, hgg] at hnone
    by_cases hk : opKey op = k
    · cases op with
      | publish p v h pub =>
          right
          simp only [opKey] at hk
          subst hk
          simp [applyOp, PublishRelease, ReleaseExists, hg, statusAt,
            getStringState_putStringState_self]
      | discontinue p v =>
          left
          simp only [opKey] at hk
          subst hk
          simp [applyOp, DiscontinueRelease, getRelease, hg, statusAt]
    · left
      simp [statusAt, getStringState_applyOp_other l op k hk, hg]
  · intro hact
    obtain ⟨r, hg, hs⟩ :
        ∃ r, getStringState l k = some r ∧ r.status = "ACTIVE" := by
      cases hgg : getStringState l k with
      | none => simp [statusAt, hgg] at hact
      | some r =>
          exact ⟨r, rfl, by simpa [statusAt, hgg] using hact⟩
    rcases applyOp_preserves_record l op k r hg with h | h
    · left; simp [statusAt, h, hs]
    · right; simp [statusAt, h]
  · intro hdisc ops
    obtain ⟨r, hg, hs⟩ :
        ∃ r, getStringState l k = some r ∧ r.status = "DISCONTINUED" := by
      cases hgg : getStringState l k with
      | none => simp [statusAt, hgg] at hdisc
      | some r =>
          exact ⟨r, rfl, by simpa [statusAt, hgg] using hdisc⟩
    rcases runOps_preserves_record ops l k r hg with h | h
    · simp [statusAt, h, hs]
    · simp [statusAt, h]

/-- C5 witness: the discontinued sample record stays DISCONTINUED across a
later publish attempt at its key. -/
theorem status_transition_system_witness :
    statusAt (runOps sampleDiscLedger
        [LedgerOp.publish "com.acme.lib" "1.0.0" "h9" "Org1MSP"])
      "com.acme.lib:1.0.0" = some "DISCONTINUED" :=
  (status_transition_system sampleDiscLedger
      (.publish "com.acme.lib" "1.0.0" "h9" "Org1MSP") "com.acme.lib:1.0.0").2.2
    (by decide) [LedgerOp.publish "com.acme.lib" "1.0.0" "h9" "Org1MSP"]

/-- C8: `DiscontinueRelease` throws `RELEASE_NOT_FOUND` when no record exists
at the key; otherwise it returns the record with its status flipped to
DISCONTINUED together with the updated state, and discontinuing again on that
state is idempotent: no error, the very same record and the very same
state. -/
theorem discontinue_notfound_flip_idempotent (l : Ledger) (p v : String) :
    (getStringState l (createKey p v) = none →
      DiscontinueRelease l p v = .error .RELEASE_NOT_FOUND) ∧
    (∀ r, getStringState l (createKey p v) = some r →
      DiscontinueRelease l p v =
        .ok ({ r with status := "DISCONTINUED" },
          putStringState l (createKey p v) { r with status := "DISCONTINUED" }) ∧
      DiscontinueRelease
          (putStringState l (createKey p v)
            { r with status := "DISCONTINUED" }) p v =
        .ok ({ r with status := "DISCONTINUED" },
          putStringState l (createKey p v)
            { r with status := "DISCONTINUED" })) := by
  constructor
  · intro hnone
    simp [DiscontinueRelease, getRelease, hnone]
  · intro r hr
    constructor
    · simp [DiscontinueRelease, getRelease, hr]
    · have hr' : getStringState
          (putStringState l (createKey p v) { r with status := "DISCONTINUED" })
          (createKey p v) = some { r with status := "DISCONTINUED" } :=
        getStringState_putStringState_self _ _ _
      simp only [DiscontinueRelease, getRelease, hr']
      rw [putStringState_putStringState_same]

/-- C8 witness: discontinuing the ACTIVE sample release flips its status, at
the stated updated state. -/
theorem discontinue_notfound_flip_idempotent_witness :
    DiscontinueRelease sampleLedger "com.acme.lib" "1.0.0" =
      .ok ({ sampleRelease with status := "DISCONTINUED" },
        putStringState sampleLedger (createKey "com.acme.lib" "1.0.0")
          { sampleRelease with status := "DISCONTINUED" }) :=
  ((discontinue_notfound_flip_idempotent sampleLedger "com.acme.lib" "1.0.0").2
    sampleRelease (by decide)).1

/-- C9: discontinuing modifies only the status field — the returned and
stored record keeps the packageId, version, fileHash and publisher of the
record held before the call — and across every further operation sequence the
record at the key keeps the fileHash recorded at publish time: no operation
recomputes or overwrites it. -/
theorem discontinue_frame_hash_immutable (l : Ledger) (p v : String)
    (r r' : SoftwareRelease) (l' : Ledger)
    (hex : getStringState l (createKey p v) = some r)
    (hok : DiscontinueRelease l p v = .ok (r', l')) :
    r'.packageId = r.packageId ∧ r'.version = r.version ∧
    r'.fileHash = r.fileHash ∧ r'.publisher = r.publisher ∧
    r'.status = "DISCONTINUED" ∧
    getStringState l' (createKey p v) = some r' ∧
    (∀ k, k ≠ createKey p v → getStringState l' k = getStringState l k) ∧
    (∀ ops : List LedgerOp, ∃ r'',
      getStringState (runOps l ops) (createKey p v) = some r'' ∧
      r''.fileHash = r.fileHash) := by
  simp only [DiscontinueRelease, getRelease, hex, Except.ok.injEq,
    Prod.mk.injEq] at hok
  obtain ⟨hr', hl'⟩ := hok
  subst hr' hl'
  refine ⟨rfl, rfl, rfl, rfl, rfl, getStringState_putStringState_self _ _ _,
    fun k hk => getStringState_putStringState_ne _ _ _ _ hk, ?_⟩
  intro ops
  rcases runOps_preserves_record ops l (createKey p v) r hex with h | h
  · exact ⟨r, h, rfl⟩
  · exact ⟨{ r with status := "DISCONTINUED" }, h, rfl⟩

/-- C9 witness: at the sample ledger, the discontinued record keeps the
published fileHash. -/
theorem discontinue_frame_hash_immutable_witness :
    ({ sampleRelease with status := "DISCONTINUED" } :
      SoftwareRelease).fileHash = sampleRelease.fileHash := by
  have h := discontinue_frame_hash_immutable sampleLedger "com.acme.lib" "1.0.0"
    sampleRelease { sampleRelease with status := "DISCONTINUED" }
    (putStringState sampleLedger (createKey "com.acme.lib" "1.0.0")
      { sampleRelease with status := "DISCONTINUED" })
    (by decide) (by rfl)
  exact h.2.2.1

/-- C7: the download handler answers with the Unavailable (403) outcome
whenever the ledger-recorded status at the key is not ACTIVE, whatever the
artifact store holds — the file is never consulted — and in particular a
download issued after `DiscontinueRelease` at the same key fails this way. -/
theorem download_gated_on_active (s : ServerState) (p v : String)
    (userId : Option String) (r : SoftwareRelease)
    (hrec : getStringState s.ledger (createKey p v) = some r)
    (hst : r.status ≠ "ACTIVE") :
    downloadHandler s p v userId = (.unavailable r.status, s) ∧
    ∀ (r₁ : SoftwareRelease) (l₁ : Ledger),
      DiscontinueRelease s.ledger p v = .ok (r₁, l₁) →
      downloadHandler { s with ledger := l₁ } p v userId =
        (.unavailable "DISCONTINUED", { s with ledger := l₁ }) := by
  constructor
  · simp [downloadHandler, GetRelease, getRelease, hrec, hst]
  · intro r₁ l₁ hok
    simp only [DiscontinueRelease, getRelease, hrec, Except.ok.injEq,
      Prod.mk.injEq] at hok
    obtain ⟨hr₁, hl₁⟩ := hok
    subst hr₁ hl₁
    simp [downloadHandler, GetRelease, getRelease,
      getStringState_putStringState_self, disc_ne_active]

/-- C7 witness: downloading the discontinued sample release fails Unavailable
although its artifact bytes are still stored. -/
theorem download_gated_on_active_witness :
    downloadHandler sampleDiscState "com.acme.lib" "1.0.0" none =
      (.unavailable "DISCONTINUED", sampleDiscState) :=
  (download_gated_on_active sampleDiscState "com.acme.lib" "1.0.0" none
    { sampleRelease with status := "DISCONTINUED" } (by decide) (by decide)).1

/-- C6: after a successful ledger publish recording the hash of bytes `b`,
the validate-file handler answers the structured result `.ok` with
`valid = true` and equal expected/actual hashes for the identical bytes, and
with `valid = false` and a differing `actualHash` for any bytes whose digest
differs; both are normal results — no error is thrown on mismatch. -/
theorem validateFile_after_publish (hash : Bytes → String) (s : ServerState)
    (p v pub : String) (b : Bytes) (r : SoftwareRelease) (l' : Ledger)
    (hpub : PublishRelease s.ledger p v (hash b) pub = .ok (r, l')) :
    validateFileHandler hash { s with ledger := l' } p v b =
      .ok true (hash b) (hash b) ∧
    ∀ b' : Bytes, hash b' ≠ hash b →
      validateFileHandler hash { s with ledger := l' } p v b' =
        .ok false (hash b) (hash b') := by
  simp only [PublishRelease, ReleaseExists] at hpub
  split at hpub
  · exact absurd hpub (by simp)
  · simp only [Except.ok.injEq, Prod.mk.injEq] at hpub
    obtain ⟨hr, hl'⟩ := hpub
    subst hr hl'
    have hget := getStringState_putStringState_self s.ledger (createKey p v)
      ⟨p, v, hash b, "ACTIVE", pub⟩
    constructor
    · simp [validateFileHandler, GetRelease, getRelease, hget,
        ValidateRelease, ReleaseExists, active_ne_disc]
    · intro b' hb'
      simp [validateFileHandler, GetRelease, getRelease, hget,
        ValidateRelease, ReleaseExists, Ne.symm hb']

/-- C6 witness: validating a one-byte-different buffer against the freshly
published sample release reports `valid = false` with differing hashes. -/
theorem validateFile_after_publish_witness :
    validateFileHandler sampleHash
        { emptyState with
            ledger := putStringState [] (createKey "com.acme.lib" "1.0.0")
              ⟨"com.acme.lib", "1.0.0", sampleHash [0], "ACTIVE", "Org1MSP"⟩ }
        "com.acme.lib" "1.0.0" [1] =
      .ok false (sampleHash [0]) (sampleHash [1]) :=
  (validateFile_after_publish sampleHash emptyState "com.acme.lib" "1.0.0"
    "Org1MSP" [0] ⟨"com.acme.lib", "1.0.0", sampleHash [0], "ACTIVE", "Org1MSP"⟩
    (putStringState [] (createKey "com.acme.lib" "1.0.0")
      ⟨"com.acme.lib", "1.0.0", sampleHash [0], "ACTIVE", "Org1MSP"⟩)
    (by rfl)).2 [1] (by decide)

/-- C10: when the upload handler lazily creates the `packages` row (the
package was absent) and the subsequent ledger publish throws because the key
is already published, the caller gets the 500 error but the freshly created
row stays in the metadata index — no compensating rollback of the metadata
write (nor of the file write) is performed. -/
theorem upload_keeps_created_package_row (hash : Bytes → String)
    (s : ServerState) (p v name : String) (d : Option String)
    (userId role pub : String) (b : Bytes) (r : SoftwareRelease)
    (hnopkg : PackageModel.findById s.packages p = none)
    (hrec : getStringState s.ledger (createKey p v) = some r) :
    uploadHandler hash s p v name d userId role pub b =
      (.serverError .RELEASE_ALREADY_EXISTS,
       { s with packages := PackageModel.create s.packages ⟨p, userId, name, d⟩,
                files := filesPut s.files p v b }) ∧
    PackageModel.findById
        (uploadHandler hash s p v name d userId role pub b).2.packages p =
      some ⟨p, userId, name, d⟩ := by
  have h := uploadHandler_fresh_dup hash s p v name d userId role pub b r
    hnopkg hrec
  refine ⟨h, ?_⟩
  rw [h]
  exact findById_create_self s.packages ⟨p, userId, name, d⟩ hnopkg

/-- C10 witness: uploading a fresh package id at an already-published key
leaves the created `packages` row behind. -/
theorem upload_keeps_created_package_row_witness :
    PackageModel.findById
        ((uploadHandler sampleHash { emptyState with ledger := sampleLedger }
          "com.acme.lib" "1.0.0" "Acme Lib" none "user-2" "OWNER" "Org1MSP"
          [7]).2).packages "com.acme.lib" =
      some ⟨"com.acme.lib", "user-2", "Acme Lib", none⟩ :=
  (upload_keeps_created_package_row sampleHash
    { emptyState with ledger := sampleLedger } "com.acme.lib" "1.0.0"
    "Acme Lib" none "user-2" "OWNER" "Org1MSP" [7] sampleRelease
    (by decide) (by decide)).2

/-- C1 counterexample: publishing bytes `[0]` then bytes `[1]` at the same
key — the second call does fail `RELEASE_ALREADY_EXISTS` and the ledger does
keep the first call's hash, but the artifact store holds the second call's
bytes `[1]`, not the first call's `[0]` as the claim states: the handler
performs no rollback, leaving an artifact whose bytes do not hash to its
release record's `fileHash`. -/
theorem upload_no_rollback_cex :
    cexRun2.1 = .serverError .RELEASE_ALREADY_EXISTS ∧
    getStringState cexRun2.2.ledger "com.acme.lib:1.0.0" =
      some ⟨"com.acme.lib", "1.0.0", sampleHash [0], "ACTIVE", "Org1MSP"⟩ ∧
    filesGet cexRun2.2.files "com.acme.lib" "1.0.0" = some [1] ∧
    ¬ filesGet cexRun2.2.files "com.acme.lib" "1.0.0" = some [0] ∧
    sampleHash [1] ≠ sampleHash [0] := by decide

/-- C1 (amended): publishing twice at one (packageId, version) key with
different bytes: the first call succeeds, the second fails
`RELEASE_ALREADY_EXISTS` with the ledger still recording the first call's
hash — but the second call's artifact write is not rolled back: the store
ends up holding the second call's bytes, and an Artifact can exist whose
bytes do not match its Release record's hash. -/
theorem upload_duplicate_overwrites_artifact (hash : Bytes → String)
    (s : ServerState) (p v name : String) (d : Option String)
    (userId role pub : String) (b1 b2 : Bytes)
    (hnopkg : PackageModel.findById s.packages p = none)
    (habsent : getStringState s.ledger (createKey p v) = none) :
    ∃ s1 s2 : ServerState,
      uploadHandler hash s p v name d userId role pub b1 =
        (.created (hash b1) b1.length, s1) ∧
      uploadHandler hash s1 p v name d userId role pub b2 =
        (.serverError .RELEASE_ALREADY_EXISTS, s2) ∧
      getStringState s2.ledger (createKey p v) =
        some ⟨p, v, hash b1, "ACTIVE", pub⟩ ∧
      filesGet s2.files p v = some b2 ∧
      s2.ledger = s1.ledger := by
  have h1 := uploadHandler_fresh hash s p v name d userId role pub b1
    hnopkg habsent
  have hpkg := findById_create_self s.packages ⟨p, userId, name, d⟩ hnopkg
  have hrec := getStringState_putStringState_self s.ledger (createKey p v)
    ⟨p, v, hash b1, "ACTIVE", pub⟩
  have h2 := uploadHandler_owned_dup hash
    { ledger := putStringState s.ledger (createKey p v)
        ⟨p, v, hash b1, "ACTIVE", pub⟩,
      files := filesPut s.files p v b1,
      packages := PackageModel.create s.packages ⟨p, userId, name, d⟩,
      downloads := s.downloads,
      notifications := s.notifications ++ [.versionUpdate p v] }
    p v name d userId role pub b2 ⟨p, userId, name, d⟩
    ⟨p, v, hash b1, "ACTIVE", pub⟩ hpkg rfl hrec
  exact ⟨_, _, h1, h2, hrec, filesGet_filesPut_self _ _ _ _, rfl⟩

/-- C1 witness for the amended claim, at the concrete duplicate upload. -/
theorem upload_duplicate_overwrites_artifact_witness :
    filesGet cexRun2.2.files "com.acme.lib" "1.0.0" = some [1] := by
  obtain ⟨s1, s2, h1, h2, -, hf, -⟩ :=
    upload_duplicate_overwrites_artifact sampleHash emptyState "com.acme.lib"
      "1.0.0" "Acme Lib" none "user-1" "OWNER" "Org1MSP" [0] [1]
      (by decide) (by decide)
  have hs1 : cexState1 = s1 := by
    simp only [cexState1, h1]
  have hrun : cexRun2 = (.serverError .RELEASE_ALREADY_EXISTS, s2) := by
    rw [cexRun2, hs1, h2]
  rw [hrun]
  exact hf

/-- C3 counterexample: on the sample state (one package with one ACTIVE
version) the DELETE handler leaves the version's ledger status ACTIVE: it
does not flip any ledger record to DISCONTINUED, contradicting the claim
that all N records end DISCONTINUED. -/
theorem deletePackage_leaves_ledger_cex :
    statusAt (deletePackageHandler sampleState "com.acme.lib").ledger
        "com.acme.lib:1.0.0" = some "ACTIVE" ∧
    ¬ statusAt (deletePackageHandler sampleState "com.acme.lib").ledger
        "com.acme.lib:1.0.0" = some "DISCONTINUED" := by decide

/-- C3 (amended): the DELETE package handler removes the `packages` row,
deletes every stored artifact of the package and appends the discontinued
notification, but issues no ledger transaction: each of the package's N
ledger records keeps exactly its previous status — none is flipped to
DISCONTINUED. -/
theorem deletePackageHandler_spec (s : ServerState) (p : String) :
    (deletePackageHandler s p).ledger = s.ledger ∧
    (deletePackageHandler s p).packages = PackageModel.delete s.packages p ∧
    (deletePackageHandler s p).files =
      FileStorageService.deletePackage s.files p ∧
    (deletePackageHandler s p).downloads = s.downloads ∧
    (deletePackageHandler s p).notifications =
      s.notifications ++ [.packageDiscontinued p] ∧
    (∀ v, filesGet (deletePackageHandler s p).files p v = none) ∧
    (∀ k, statusAt (deletePackageHandler s p).ledger k = statusAt s.ledger k) := by
  refine ⟨rfl, rfl, rfl, rfl, rfl, ?_, fun k => rfl⟩
  intro v
  exact filesGet_deletePackage s.files p v
